import Mathlib

/-
Verification of the stt continuous-capture / segmentation / trigger-arbitration
pipeline.  The Lean definitions below are a shallow embedding of the Python
sources under src/stt:

  * config.py     -> namespace Config
  * audio.py      -> wrap16, meanSq, calculate_energy, energyAtLeast
  * transcribe.py -> SpeechRecognizer, calibrate_threshold, LoopStep,
                     LoopState, transcribeLoop, transcribe_audio,
                     strContains, detect_trigger_word
  * main.py       -> KeyboardTrigger, on_press_enter
  * clipboard.py  -> ClipboardEnv, copy_to_clipboard

Audio frames are modelled as their decoded sample sequences (List Int: the
result of NumPy frombuffer with dtype int16 on the raw byte payload);
wall-clock readings of time.time() appear as explicit rational timestamps
carried by the input trace; the external Whisper transcription capability is
an oracle function parameter.  NumPy int16 arithmetic wraps modulo 2^16,
which the embedding reproduces exactly (wrap16); a floating-point NaN result
of calculate_energy (mean of an empty array, or sqrt of a negative mean) is
modelled as Option.none, and the Python comparison `nan >= t`, which is
False, corresponds to the predicate energyAtLeast being false when the
energy is none.
-/

namespace STT

/- Constants from config.py. -/
namespace Config

def WAKE_WORD : String := "hello"

def SAMPLE_RATE : Nat := 16000

def CHANNELS : Nat := 1

def CHUNK_SIZE : Nat := 8000

def SILENCE_THRESHOLD : ℚ := 5

def SILENCE_DURATION : ℚ := 2

def MAX_RECORDING_DURATION : ℚ := 30

def MIN_RECORDING_DURATION : ℚ := 1/2

def AUTO_CALIBRATE_THRESHOLD : Bool := true

end Config

/-- NumPy int16 arithmetic: wrap an integer into [-32768, 32767] modulo 2^16,
two's complement.  `audio_array**2` on an int16 array keeps dtype int16, so
each square is wrapped by this function before the mean is taken. -/
def wrap16 (x : ℤ) : ℤ :=
  (x + 32768) % 65536 - 32768

/-- Mean of the (int16-wrapped) squares of the samples, as an exact rational:
`np.mean(audio_array**2)` for a frame decoded from bytes.  For the empty
frame this is 0/0 = 0 in ℚ; calculate_energy separately maps that case to
none (NumPy mean of an empty array is NaN). -/
def meanSq (f : List ℤ) : ℚ :=
  (((f.map (fun x => wrap16 (x * x))).sum : ℤ) : ℚ) / (f.length : ℚ)

/-- audio.py calculate_energy: float(np.sqrt(np.mean(audio_array**2))).
Returns none exactly when the Python value is NaN: the frame is empty
(mean of an empty array) or the wrapped mean square is negative (sqrt of a
negative float). -/
noncomputable def calculate_energy (f : List ℤ) : Option ℝ :=
  if f.length ≠ 0 ∧ 0 ≤ meanSq f then some (Real.sqrt ((meanSq f : ℚ) : ℝ))
  else none

/-- The loop test `energy >= self.silence_threshold` of transcribe.py, for a
frame with energy `calculate_energy f` and threshold `thr`.  When the energy
is NaN (none) the Python comparison is False, matching the empty existential. -/
def energyAtLeast (thr : ℚ) (f : List ℤ) : Prop :=
  ∃ e, calculate_energy f = some e ∧ (thr : ℝ) ≤ e

theorem calculate_energy_of_nonneg (f : List ℤ) (hne : f.length ≠ 0)
    (h : 0 ≤ meanSq f) :
    calculate_energy f = some (Real.sqrt ((meanSq f : ℚ) : ℝ)) := by
  simp [calculate_energy, hne, h]

theorem calculate_energy_of_neg (f : List ℤ) (h : ¬(f.length ≠ 0 ∧ 0 ≤ meanSq f)) :
    calculate_energy f = none := by
  simp only [calculate_energy, if_neg h]

/-- Decision procedure for the threshold test, so that the recording loop is
an executable function: for a defined energy, `thr ≤ sqrt m` iff `thr ≤ 0`
or `thr^2 ≤ m`. -/
theorem energyAtLeast_iff (thr : ℚ) (f : List ℤ) :
    energyAtLeast thr f ↔
      f.length ≠ 0 ∧ 0 ≤ meanSq f ∧ (thr ≤ 0 ∨ thr ^ 2 ≤ meanSq f) := by
  constructor
  · rintro ⟨e, he, hle⟩
    by_cases hc : f.length ≠ 0 ∧ 0 ≤ meanSq f
    · obtain ⟨h1, h2⟩ := hc
      rw [calculate_energy_of_nonneg f h1 h2] at he
      obtain rfl : e = Real.sqrt ((meanSq f : ℚ) : ℝ) := by
        exact (Option.some_inj.mp he).symm
      refine ⟨h1, h2, ?_⟩
      by_cases hthr : thr ≤ 0
      · exact Or.inl hthr
      · right
        have hthr' : (0 : ℝ) < (thr : ℝ) := by exact_mod_cast lt_of_not_le hthr
        have h2' : (0 : ℝ) ≤ ((meanSq f : ℚ) : ℝ) := by exact_mod_cast h2
        have := (Real.le_sqrt (le_of_lt hthr') h2').mp hle
        exact_mod_cast this
    · rw [calculate_energy_of_neg f hc] at he
      exact absurd he (by simp)
  · rintro ⟨h1, h2, h3⟩
    refine ⟨Real.sqrt ((meanSq f : ℚ) : ℝ), calculate_energy_of_nonneg f h1 h2, ?_⟩
    rcases h3 with h3 | h3
    · have : (thr : ℝ) ≤ 0 := by exact_mod_cast h3
      exact le_trans this (Real.sqrt_nonneg _)
    · have h3' : ((thr : ℝ)) ^ 2 ≤ ((meanSq f : ℚ) : ℝ) := by exact_mod_cast h3
      exact Real.le_sqrt_of_sq_le h3'

instance (thr : ℚ) (f : List ℤ) : Decidable (energyAtLeast thr f) :=
  decidable_of_iff _ (energyAtLeast_iff thr f).symm

/-- Recognizer state: the two mutable fields of transcribe.py's
SpeechRecognizer that the core logic reads and writes (the loaded Whisper
model is the external transcription capability, passed as an oracle). -/
structure SpeechRecognizer where
  silence_threshold : ℚ
  calibrated : Bool
deriving DecidableEq, Repr

/-- SpeechRecognizer.__init__: threshold starts at config SILENCE_THRESHOLD,
not yet calibrated. -/
def SpeechRecognizer.init : SpeechRecognizer :=
  { silence_threshold := Config.SILENCE_THRESHOLD, calibrated := false }

/-- Python int() on a float: truncation toward zero. -/
def pyInt (q : ℚ) : ℤ :=
  if 0 ≤ q then ⌊q⌋ else ⌈q⌉

/-- transcribe.py calibrate_threshold.  The energy samples collected from
the 2-second warm-up window are the input list (the loop over
audio_stream.read / calculate_energy); `if energy_samples:` guards the
update; the new threshold is max(3, int(avg_noise * 1.5)). -/
def calibrate_threshold (st : SpeechRecognizer) (energy_samples : List ℚ) :
    SpeechRecognizer :=
  if ¬Config.AUTO_CALIBRATE_THRESHOLD ∨ st.calibrated then st
  else if energy_samples.isEmpty then st
  else
    let avg_noise : ℚ := energy_samples.sum / (energy_samples.length : ℚ)
    { silence_threshold := ((max 3 (pyInt (avg_noise * (3/2))) : ℤ) : ℚ),
      calibrated := true }

/-- One iteration's worth of external observations for the recording loop of
transcribe.py transcribe_audio: the value of keyboard_trigger's
stop_requested flag read at the top of the iteration (False when no
keyboard_trigger dict was passed), the time.time() reading at the
max-duration check, the frame returned by audio_stream.read(), and the
time.time() reading used inside the silence branch. -/
structure LoopStep where
  stop_requested : Bool
  t0 : ℚ
  frame : List ℤ
  t1 : ℚ
deriving DecidableEq, Repr

/-- The loop-local mutable state of transcribe_audio, plus the ghost field
`reads` that records the result of every audio_stream.read() call the loop
has made (it instruments the read, it does not alter control flow). -/
structure LoopState where
  chunks : List (List ℤ)
  silence_start : Option ℚ
  has_audio : Bool
  reads : List (List ℤ)
deriving DecidableEq, Repr

def LoopState.initial : LoopState :=
  { chunks := [], silence_start := none, has_audio := false, reads := [] }

/-- The `while True` loop of transcribe_audio, one constructor case per
Python branch, in source order: manual-stop check, max-duration check, read
the frame, threshold test, silence bookkeeping (the silence-duration break
fires BEFORE the append, so that frame is read but not collected), append.
The trace is consumed left to right; an exhausted trace returns the current
state (the real loop would block in read()). -/
def transcribeLoop (thr recording_start : ℚ) (st : LoopState) :
    List LoopStep → LoopState
  | [] => st
  | step :: rest =>
    if step.stop_requested then st
    else if step.t0 - recording_start > Config.MAX_RECORDING_DURATION then st
    else
      let f := step.frame
      let st' := { st with reads := st.reads ++ [f] }
      if energyAtLeast thr f then
        transcribeLoop thr recording_start
          { st' with chunks := st'.chunks ++ [f], silence_start := none,
                     has_audio := true } rest
      else if st'.has_audio then
        match st'.silence_start with
        | none =>
          transcribeLoop thr recording_start
            { st' with chunks := st'.chunks ++ [f],
                       silence_start := some step.t1 } rest
        | some s =>
          if step.t1 - s > Config.SILENCE_DURATION then st'
          else
            transcribeLoop thr recording_start
              { st' with chunks := st'.chunks ++ [f] } rest
      else
        transcribeLoop thr recording_start
          { st' with chunks := st'.chunks ++ [f] } rest

/-- transcribe.py transcribe_audio after the loop: the min-duration /
has_audio guard (`recording_duration` is time.time() at loop exit, passed
here as tEnd, minus recording_start), then joining the chunks, normalizing
int16 samples by 32768, and one call to the external transcription
capability `asr` whose text is whitespace-stripped.  The first component
records the sample buffer passed to the capability: none means no
transcription call was issued (the empty transcript is returned directly). -/
def transcribe_audio (thr recording_start tEnd : ℚ) (steps : List LoopStep)
    (asr : List ℚ → String) : Option (List ℚ) × String :=
  let st := transcribeLoop thr recording_start LoopState.initial steps
  if tEnd - recording_start < Config.MIN_RECORDING_DURATION ∨ st.has_audio = false
  then (none, "")
  else
    let audio_array := (st.chunks.flatten).map (fun x => (x : ℚ) / 32768)
    (some audio_array, (asr audio_array).trim)

/-- Bool test: p is a leading segment of s (helper for substring search). -/
def leadsList (p s : List Char) : Bool :=
  match p, s with
  | [], _ => true
  | _ :: _, [] => false
  | a :: p', b :: s' => a == b && leadsList p' s'

/-- Substring search over the character lists of the two strings. -/
def containsSub (needle : List Char) : List Char → Bool
  | [] => leadsList needle []
  | c :: t => leadsList needle (c :: t) || containsSub needle t

/-- The Python substring test `needle in hay`. -/
def strContains (hay needle : String) : Bool :=
  containsSub needle.data hay.data

/-- transcribe.py detect_trigger_word, from the point where the spotted text
has been produced by the word-spotting transcription call: the returned text
is lower-cased and stripped, the paste word is tested first (higher
priority), then the wake word.  The configured words are parameters
(PASTE_WORD is imported by transcribe.py but not defined in config.py; the
detection cue side effect is fire-and-forget and not modelled). -/
def detect_trigger_word (paste_word wake_word text : String) : Option String :=
  let t := text.toLower.trim
  let paste_word_normalized := paste_word.toLower.trim
  if strContains t paste_word_normalized then some "paste"
  else
    let wake_word_normalized := wake_word.toLower.trim
    if strContains t wake_word_normalized then some "wake"
    else none

/-- The shared keyboard_trigger dict of main.py.  stop_requested models
keyboard_trigger.get("stop_requested", False): absent keys read as False. -/
structure KeyboardTrigger where
  active : Bool
  recording : Bool
  stop_requested : Bool
deriving DecidableEq, Repr

/-- main.py on_press for the Enter key: start when not recording, otherwise
stop, in both cases by flipping active/recording only. -/
def on_press_enter (kt : KeyboardTrigger) : KeyboardTrigger :=
  if kt.recording = false then { kt with active := true, recording := true }
  else { kt with active := true, recording := false }

/-- The external world consumed by clipboard.py copy_to_clipboard: the
platform name and the three helper outcomes.  Except models the Python
call raising (error) versus returning a bool (ok). -/
structure ClipboardEnv where
  system : String
  copy_macos : String → Except Unit Bool
  copy_linux : String → Except Unit Bool
  copy_pyperclip : String → Except Unit Bool

/-- clipboard.py copy_to_clipboard: the empty-text early return, the
platform dispatch inside try, and the except handler that falls back to
pyperclip and finally returns False.  Every branch yields ok: the function
itself never raises. -/
def copy_to_clipboard (env : ClipboardEnv) (text : String) : Except Unit Bool :=
  if text = "" then .ok false
  else
    let attempt : Except Unit Bool :=
      if env.system = "Darwin" then env.copy_macos text
      else if env.system = "Linux" then env.copy_linux text
      else env.copy_pyperclip text
    match attempt with
    | .ok b => .ok b
    | .error _ =>
      match env.copy_pyperclip text with
      | .ok b => .ok b
      | .error _ => .ok false

/-- Environment for the clipboard witness: macOS platform, every external
clipboard helper raising. -/
def envDarwinFail : ClipboardEnv :=
  { system := "Darwin",
    copy_macos := fun _ => .error (),
    copy_linux := fun _ => .error (),
    copy_pyperclip := fun _ => .error () }

/-- C1: for every spotted text, with the paste and wake words lower-cased and
trimmed and containment meaning substring containment of the lower-cased
trimmed text, detect_trigger_word returns the paste trigger (and not the
wake trigger) whenever both words are contained, the wake trigger whenever
only the wake word is contained, and no trigger when neither is contained. -/
theorem detect_trigger_word_cases (paste_word wake_word text : String) :
    (strContains (text.toLower.trim) (paste_word.toLower.trim) = true ∧
        strContains (text.toLower.trim) (wake_word.toLower.trim) = true →
      detect_trigger_word paste_word wake_word text = some "paste" ∧
        detect_trigger_word paste_word wake_word text ≠ some "wake") ∧
    (strContains (text.toLower.trim) (paste_word.toLower.trim) = false ∧
        strContains (text.toLower.trim) (wake_word.toLower.trim) = true →
      detect_trigger_word paste_word wake_word text = some "wake") ∧
    (strContains (text.toLower.trim) (paste_word.toLower.trim) = false ∧
        strContains (text.toLower.trim) (wake_word.toLower.trim) = false →
      detect_trigger_word paste_word wake_word text = none) := by
  refine ⟨?_, ?_, ?_⟩ <;> rintro ⟨h1, h2⟩ <;>
    simp [detect_trigger_word, h1, h2]

/-- C1 witness: the spotted text contains both words, the result is the
paste trigger. -/
theorem detect_trigger_word_cases_witness :
    detect_trigger_word "paste" "hello" " Please paste it, hello " = some "paste" ∧
      detect_trigger_word "paste" "hello" " Please paste it, hello " ≠ some "wake" :=
  (detect_trigger_word_cases "paste" "hello" " Please paste it, hello ").1
    ⟨by with_unfolding_all decide, by with_unfolding_all decide⟩

/-- C4 counterexample: calibrating a fresh recognizer on the sample sequence
[3] sets the threshold to int(4.5) = 4, while the claimed formula
max(floor, 1.5 × mean(samples)) gives 9/2. -/
theorem calibrate_threshold_not_exact :
    (calibrate_threshold ⟨5, false⟩ [3]).silence_threshold = 4 ∧
      (4 : ℚ) ≠ max 3 ((3 : ℚ) * (3/2)) := by
  constructor
  · with_unfolding_all decide
  · with_unfolding_all decide

/-- C4 amended: for every non-empty sample sequence fed to an uncalibrated
recognizer, calibration sets the threshold to exactly
max(3, int(mean(samples) × 1.5)) — int() being Python truncation toward
zero — and marks the recognizer calibrated; being a function of the sample
list, the result is deterministic for fixed input. -/
theorem calibrate_threshold_formula (st : SpeechRecognizer) (samples : List ℚ)
    (hcal : st.calibrated = false) (hne : samples ≠ []) :
    (calibrate_threshold st samples).silence_threshold =
        ((max 3 (pyInt (samples.sum / (samples.length : ℚ) * (3/2))) : ℤ) : ℚ) ∧
      (calibrate_threshold st samples).calibrated = true := by
  have hemp : samples.isEmpty = false := by
    cases samples with
    | nil => exact absurd rfl hne
    | cons a t => rfl
  unfold calibrate_threshold
  rw [if_neg (by simp [Config.AUTO_CALIBRATE_THRESHOLD, hcal]), if_neg (by simp [hemp])]
  exact ⟨rfl, rfl⟩

/-- C4 amended witness: samples [3], mean 3, threshold int(4.5) = 4. -/
theorem calibrate_threshold_formula_witness :
    (calibrate_threshold ⟨5, false⟩ [3]).silence_threshold =
        ((max 3 (pyInt (([(3 : ℚ)].sum / (([(3 : ℚ)].length : ℕ) : ℚ)) * (3/2))) : ℤ) : ℚ) ∧
      (calibrate_threshold ⟨5, false⟩ [3]).calibrated = true :=
  calibrate_threshold_formula ⟨5, false⟩ [3] rfl (by simp)

/-- C8: once a call to calibrate_threshold completes calibration (the
calibrated flag is set), every subsequent call is a no-op: it returns the
state unchanged, threshold and flag included. -/
theorem calibrate_threshold_once (st : SpeechRecognizer)
    (samples samples' : List ℚ)
    (h : (calibrate_threshold st samples).calibrated = true) :
    calibrate_threshold (calibrate_threshold st samples) samples' =
      calibrate_threshold st samples := by
  rw [calibrate_threshold]
  exact if_pos (Or.inr h)

/-- C8 witness: a completed calibration on [4] makes the next call on [100]
a no-op. -/
theorem calibrate_threshold_once_witness :
    calibrate_threshold (calibrate_threshold ⟨5, false⟩ [4]) [100] =
      calibrate_threshold ⟨5, false⟩ [4] :=
  calibrate_threshold_once ⟨5, false⟩ [4] [100] (by with_unfolding_all decide)

/-- C9: the silence threshold is at least the floor 3 at construction
(config SILENCE_THRESHOLD = 5) and this bound is preserved by
calibrate_threshold, the only operation of the recognizer that writes the
threshold (transcribe_audio and detect_trigger_word never touch the
recognizer state). -/
theorem silence_threshold_ge_floor :
    3 ≤ SpeechRecognizer.init.silence_threshold ∧
      ∀ (st : SpeechRecognizer) (samples : List ℚ),
        3 ≤ st.silence_threshold →
          3 ≤ (calibrate_threshold st samples).silence_threshold := by
  constructor
  · norm_num [SpeechRecognizer.init, Config.SILENCE_THRESHOLD]
  · intro st samples h
    unfold calibrate_threshold
    split
    · exact h
    · split
      · exact h
      · have hmax : (3 : ℤ) ≤ max 3 (pyInt (samples.sum / (samples.length : ℚ) * (3/2))) :=
          le_max_left _ _
        simp only []
        exact_mod_cast hmax

/-- C9 witness: preservation at a concrete state and sample list (mean 0,
threshold clamped to the floor 3). -/
theorem silence_threshold_ge_floor_witness :
    3 ≤ (calibrate_threshold ⟨5, false⟩ [0]).silence_threshold :=
  silence_threshold_ge_floor.2 ⟨5, false⟩ [0] (by norm_num)

/-- C10: copy_to_clipboard returns false on the empty string — for every
environment, so no clipboard helper is consulted — and on every input, in
every environment (platform and helper outcomes, including helpers that
raise), it returns ok with a boolean: it never raises. -/
theorem copy_to_clipboard_total (env : ClipboardEnv) (text : String) :
    (text = "" → copy_to_clipboard env text = .ok false) ∧
      ∃ b, copy_to_clipboard env text = .ok b := by
  constructor
  · intro h
    simp [copy_to_clipboard, h]
  · by_cases h : text = ""
    · exact ⟨false, by simp [copy_to_clipboard, h]⟩
    · unfold copy_to_clipboard
      rw [if_neg h]
      cases hA : (if env.system = "Darwin" then env.copy_macos text
          else if env.system = "Linux" then env.copy_linux text
          else env.copy_pyperclip text) with
      | ok b => exact ⟨b, by simp [hA]⟩
      | error e =>
        cases hB : env.copy_pyperclip text with
        | ok b => exact ⟨b, by simp [hA, hB]⟩
        | error e' => exact ⟨false, by simp [hA, hB]⟩

/-- C10 witness: empty text on a macOS environment whose helpers all raise
still yields ok false. -/
theorem copy_to_clipboard_total_witness :
    copy_to_clipboard envDarwinFail "" = .ok false :=
  (copy_to_clipboard_total envDarwinFail "").1 rfl

/-- Helper: the NaN energy of a frame whose int16-wrapped square mean is
negative.  A single sample 200 squares to 40000, which wraps to -25536 in
int16, so np.mean is negative and np.sqrt returns NaN. -/
theorem calculate_energy_two_hundred : calculate_energy [200] = none := by
  with_unfolding_all rfl

/-- C2 (code bug evidence): main.py on_press, for Enter pressed while a
recording is active, posts the edge {active := true, recording := false}
and leaves stop_requested untouched — no code path ever sets it — while
transcribe_audio polls only stop_requested; so the next loop iteration,
seeing stop_requested = false, still consumes and appends the frame: the
recording does not stop. -/
theorem manual_stop_edge_not_observed :
    on_press_enter { active := false, recording := true, stop_requested := false } =
        { active := true, recording := false, stop_requested := false } ∧
      (transcribeLoop 5 0 LoopState.initial
          [{ stop_requested := false, t0 := 1, frame := List.replicate 4 100, t1 := 1 }]).chunks
        = [List.replicate 4 100] := by
  constructor
  · rfl
  · with_unfolding_all decide

/-- Helper: while no frame reaches the threshold, the has_audio flag of the
recording loop stays false. -/
theorem transcribeLoop_has_audio_false (thr recording_start : ℚ)
    (steps : List LoopStep) (st : LoopState) (hst : st.has_audio = false)
    (hq : ∀ s ∈ steps, ¬ energyAtLeast thr s.frame) :
    (transcribeLoop thr recording_start st steps).has_audio = false := by
  induction steps generalizing st with
  | nil => simpa [transcribeLoop] using hst
  | cons step rest ih =>
    have hstep : ¬ energyAtLeast thr step.frame := hq step (by simp)
    have hrest : ∀ s ∈ rest, ¬ energyAtLeast thr s.frame := fun s hs =>
      hq s (List.mem_cons_of_mem _ hs)
    rw [transcribeLoop]
    split
    · exact hst
    · split
      · exact hst
      · rw [if_neg hstep, if_neg (by simp [hst])]
        exact ih _ (by simp [hst]) hrest

/-- C3: if no frame of the consumed sequence reaches the silence threshold,
or the total recording duration is below MIN_RECORDING_DURATION,
transcribe_audio returns the empty transcript and issues no call to the
transcription capability (the buffer component is none). -/
theorem transcribe_audio_discards (thr recording_start tEnd : ℚ)
    (steps : List LoopStep) (asr : List ℚ → String)
    (h : (∀ s ∈ steps, ¬ energyAtLeast thr s.frame) ∨
      tEnd - recording_start < Config.MIN_RECORDING_DURATION) :
    transcribe_audio thr recording_start tEnd steps asr = (none, "") := by
  unfold transcribe_audio
  rcases h with h | h
  · rw [if_pos (Or.inr (transcribeLoop_has_audio_false thr recording_start
      steps LoopState.initial rfl h))]
  · rw [if_pos (Or.inl h)]

/-- C3 witness: one quiet frame, ample duration — discarded with no
transcription call, even with a capability that would return text. -/
theorem transcribe_audio_discards_witness :
    transcribe_audio 5 0 10
        [{ stop_requested := false, t0 := 1, frame := [0, 0], t1 := 1 }]
        (fun _ => "speech") = (none, "") :=
  transcribe_audio_discards 5 0 10 _ _ (Or.inl (by with_unfolding_all decide))

/-- C7 counterexample: threshold 5, a loud frame, then a quiet frame that
starts the silence clock at t = 1, then a quiet frame observed at t = 4:
the silence window (2 s) is exceeded, the loop breaks before the append,
and the third frame — read from the source — is missing from the buffer. -/
theorem silence_stop_frame_dropped :
    ((transcribeLoop 5 0 LoopState.initial
        [{ stop_requested := false, t0 := 0, frame := List.replicate 4 100, t1 := 0 },
         { stop_requested := false, t0 := 1, frame := [0, 0], t1 := 1 },
         { stop_requested := false, t0 := 4, frame := [1, 1], t1 := 4 }]).reads =
      [List.replicate 4 100, [0, 0], [1, 1]]) ∧
    ((transcribeLoop 5 0 LoopState.initial
        [{ stop_requested := false, t0 := 0, frame := List.replicate 4 100, t1 := 0 },
         { stop_requested := false, t0 := 1, frame := [0, 0], t1 := 1 },
         { stop_requested := false, t0 := 4, frame := [1, 1], t1 := 4 }]).chunks =
      [List.replicate 4 100, [0, 0]]) := by
  with_unfolding_all decide

/-- Helper for the amended C7: starting from a state whose read log equals
its buffer, the loop keeps them equal except that a silence-duration stop
leaves exactly the one stop-triggering frame logged as read but unbuffered. -/
theorem transcribeLoop_reads_chunks_aux (thr recording_start : ℚ)
    (steps : List LoopStep) (st : LoopState) (hst : st.reads = st.chunks) :
    (transcribeLoop thr recording_start st steps).reads =
        (transcribeLoop thr recording_start st steps).chunks ∨
      ∃ f, (transcribeLoop thr recording_start st steps).reads =
        (transcribeLoop thr recording_start st steps).chunks ++ [f] := by
  induction steps generalizing st with
  | nil => exact Or.inl (by simpa [transcribeLoop] using hst)
  | cons step rest ih =>
    rw [transcribeLoop]
    split
    · exact Or.inl hst
    · split
      · exact Or.inl hst
      · dsimp only
        split
        · exact ih _ (by simp [hst])
        · split
          · split
            · exact ih _ (by simp [hst])
            · split
              · exact Or.inr ⟨step.frame, by simp [hst]⟩
              · exact ih _ (by simp [hst])
          · exact ih _ (by simp [hst])

/-- C7 amended: every frame read while recording is appended to the buffer,
in arrival order, except that the single frame whose observation triggers
the silence-duration stop is read but discarded: the final read log is the
final buffer, or the final buffer extended by that one frame (the buffer
flattened in this order is what transcribe_audio passes to transcription). -/
theorem transcribeLoop_reads_chunks (thr recording_start : ℚ)
    (steps : List LoopStep) :
    (transcribeLoop thr recording_start LoopState.initial steps).reads =
        (transcribeLoop thr recording_start LoopState.initial steps).chunks ∨
      ∃ f, (transcribeLoop thr recording_start LoopState.initial steps).reads =
        (transcribeLoop thr recording_start LoopState.initial steps).chunks ++ [f] :=
  transcribeLoop_reads_chunks_aux thr recording_start steps LoopState.initial rfl

/-- Helper: wrap16 is the identity on values already representable in
int16. -/
theorem wrap16_eq_self (x : ℤ) (h1 : -32768 ≤ x) (h2 : x ≤ 32767) :
    wrap16 x = x := by
  unfold wrap16
  omega

/-- Helper: the wrapped mean square of a constant frame of n > 0 samples of
value c is the wrapped square of c. -/
theorem meanSq_replicate (c : ℤ) (n : ℕ) (hn : 0 < n) :
    meanSq (List.replicate n c) = ((wrap16 (c * c) : ℤ) : ℚ) := by
  unfold meanSq
  rw [List.map_replicate, List.sum_replicate, List.length_replicate]
  have hn' : (n : ℚ) ≠ 0 := Nat.cast_ne_zero.mpr hn.ne'
  have hcast : (((n • wrap16 (c * c) : ℤ)) : ℚ) = (n : ℚ) * ((wrap16 (c * c) : ℤ) : ℚ) := by
    rw [nsmul_eq_mul, Int.cast_mul]
    push_cast
    ring
  rw [hcast, mul_comm, mul_div_assoc, div_self hn', mul_one]

/-- C6 counterexample: the single-sample frame [200] (a legal int16 frame)
has NumPy energy NaN, not a non-negative scalar: 200² = 40000 overflows the
int16 square to -25536, the mean is negative, and np.sqrt of it is NaN. -/
theorem calculate_energy_nan :
    ¬ ∃ e : ℝ, calculate_energy [200] = some e ∧ 0 ≤ e := by
  rintro ⟨e, he, -⟩
  rw [calculate_energy_two_hundred] at he
  exact Option.noConfusion he

/-- C6 amended: whenever the energy of a frame is an actual number (the
frame is non-empty and its int16-wrapped mean square is non-negative, so
np.sqrt does not produce NaN), that energy is non-negative. -/
theorem calculate_energy_nonneg (f : List ℤ) (e : ℝ)
    (h : calculate_energy f = some e) : 0 ≤ e := by
  unfold calculate_energy at h
  split at h
  · injection h with h
    rw [← h]
    exact Real.sqrt_nonneg _
  · exact absurd h (by simp)

/-- C6 amended witness: the all-zero one-sample frame has defined energy,
which is non-negative. -/
theorem calculate_energy_nonneg_witness :
    0 ≤ Real.sqrt ((meanSq [0] : ℚ) : ℝ) :=
  calculate_energy_nonneg [0] _ (by with_unfolding_all rfl)

/-- C5 counterexample: constant amplitudes 100 ≤ 200, both legal int16
values, but the energy of the amplitude-200 frame is NaN (int16 square
overflow), so it is not greater than or equal to — or comparable at all
with — the energy of the amplitude-100 frame. -/
theorem energy_monotone_fails :
    (0 : ℤ) ≤ 100 ∧ (100 : ℤ) ≤ 200 ∧ (200 : ℤ) ≤ 32767 ∧
      ¬ ∃ x y, calculate_energy [100] = some x ∧
        calculate_energy [200] = some y ∧ x ≤ y := by
  refine ⟨by decide, by decide, by decide, ?_⟩
  rintro ⟨x, y, -, hy, -⟩
  rw [calculate_energy_two_hundred] at hy
  exact Option.noConfusion hy

/-- C5 amended: energy is monotonic in constant sample amplitude on the
overflow-free range: for 0 ≤ a ≤ b ≤ 181 (so the int16 squares do not
wrap) and any positive frame length, both energies are defined and the
amplitude-a energy is at most the amplitude-b energy. -/
theorem energy_monotone_amended (a b : ℤ) (n : ℕ) (ha : 0 ≤ a) (hab : a ≤ b)
    (hb : b ≤ 181) (hn : 0 < n) :
    ∃ x y, calculate_energy (List.replicate n a) = some x ∧
      calculate_energy (List.replicate n b) = some y ∧ x ≤ y := by
  have hb0 : 0 ≤ b := le_trans ha hab
  have ha2 : 0 ≤ a * a := mul_self_nonneg a
  have hb2 : 0 ≤ b * b := mul_self_nonneg b
  have haa : a * a ≤ 32761 := by nlinarith
  have hbb : b * b ≤ 32761 := by nlinarith
  have hma : meanSq (List.replicate n a) = ((a * a : ℤ) : ℚ) := by
    rw [meanSq_replicate a n hn, wrap16_eq_self _ (by omega) (by omega)]
  have hmb : meanSq (List.replicate n b) = ((b * b : ℤ) : ℚ) := by
    rw [meanSq_replicate b n hn, wrap16_eq_self _ (by omega) (by omega)]
  have hlen : ∀ c : ℤ, (List.replicate n c).length ≠ 0 := by
    intro c
    rw [List.length_replicate]
    exact hn.ne'
  have h0a : 0 ≤ meanSq (List.replicate n a) := by
    rw [hma]
    exact_mod_cast ha2
  have h0b : 0 ≤ meanSq (List.replicate n b) := by
    rw [hmb]
    exact_mod_cast hb2
  refine ⟨_, _, calculate_energy_of_nonneg _ (hlen a) h0a,
    calculate_energy_of_nonneg _ (hlen b) h0b, ?_⟩
  apply Real.sqrt_le_sqrt
  rw [hma, hmb]
  have hab2 : a * a ≤ b * b := by nlinarith
  exact_mod_cast hab2

/-- C5 amended witness: amplitudes 1 ≤ 2 on one-sample frames. -/
theorem energy_monotone_amended_witness :
    ∃ x y, calculate_energy (List.replicate 1 1) = some x ∧
      calculate_energy (List.replicate 1 2) = some y ∧ x ≤ y :=
  energy_monotone_amended 1 2 1 (by decide) (by decide) (by decide) (by decide)

end STT
